import Mathlib

/-!
Verification of the V20_ROM_Dump sketch (src/ROM_Dump/ROM_Dump.ino).

The sketch manipulates hardware through four Arduino primitives only:
`pinMode`, `digitalWrite`, `digitalRead` and `delayMicroseconds`.  We embed
the hardware as a pin-indexed state (direction mode and output latch per
pin) together with a trace of externally visible events, and translate each
function of the sketch into a state-passing Lean function.  Levels read on a
pin that is in input (floating) mode come from an environment function,
modelling whatever device drives the line.  HIGH is `true`, LOW is `false`.
-/

namespace V20

/-- Direction of one GPIO line: `input` is floating/high-impedance,
`output` is actively driven. -/
inductive Mode where
  | input : Mode
  | output : Mode
deriving DecidableEq, Repr

/-- One externally visible hardware action performed by the sketch. -/
inductive Event where
  | setMode (pin : Nat) (m : Mode)
  | write (pin : Nat) (level : Bool)
  | readPin (pin : Nat) (level : Bool)
  | delayMicros (n : Nat)
deriving DecidableEq, Repr

/-- The pin state of the Teensy: direction mode and output latch per pin. -/
structure HW where
  mode : Nat → Mode
  out : Nat → Bool

/-- Pin state together with the trace of events performed so far
(oldest first). -/
structure Sys where
  hw : HW
  tr : List Event

/-- The effect of `digitalWrite` on the pin state: update the output latch. -/
def digitalWriteHW (h : HW) (p : Nat) (v : Bool) : HW :=
  { mode := h.mode, out := fun q => if q = p then v else h.out q }

/-- The effect of `pinMode` on the pin state: update the direction. -/
def pinModeHW (h : HW) (p : Nat) (m : Mode) : HW :=
  { mode := fun q => if q = p then m else h.mode q, out := h.out }

/-- `digitalRead`: a floating pin shows the level driven by the external
environment `env`; a driven pin reads back its own output latch. -/
def digitalReadHW (env : Nat → Bool) (h : HW) (p : Nat) : Bool :=
  match h.mode p with
  | Mode.input => env p
  | Mode.output => h.out p

/-- `digitalWrite` as a step on `Sys` (records the event). -/
def dWrite (p : Nat) (v : Bool) (s : Sys) : Sys :=
  { hw := digitalWriteHW s.hw p v, tr := s.tr ++ [Event.write p v] }

/-- `pinMode` as a step on `Sys` (records the event). -/
def dMode (p : Nat) (m : Mode) (s : Sys) : Sys :=
  { hw := pinModeHW s.hw p m, tr := s.tr ++ [Event.setMode p m] }

/-- `digitalRead` as a step on `Sys` (records the observed level). -/
def dRead (env : Nat → Bool) (p : Nat) (s : Sys) : Sys × Bool :=
  ({ hw := s.hw, tr := s.tr ++ [Event.readPin p (digitalReadHW env s.hw p)] },
   digitalReadHW env s.hw p)

/-- `delayMicroseconds` as a step on `Sys` (records the settle delay). -/
def delayMicroseconds (n : Nat) (s : Sys) : Sys :=
  { s with tr := s.tr ++ [Event.delayMicros n] }

/-! Teensy pin definitions from the sketch. -/

def ASTB : Nat := 37
def BUFEN : Nat := 38
def BUFRW : Nat := 39
def IOMEM : Nat := 14
def WR : Nat := 15
def HLDAK : Nat := 16
def HLDRQ : Nat := 17
def RD : Nat := 18
def LED_BUILTIN : Nat := 13

/-- Values for BUSRQ (bus hold request): `#define BUS_HOLD HIGH`. -/
def BUS_HOLD : Bool := true
def BUS_RELEASE : Bool := false

/-- Values for BUSAK (bus hold acknowledge): `#define BUS_ACK HIGH`. -/
def BUS_ACK : Bool := true
def BUS_NAK : Bool := false

/-- `int bus_pins[] = { 25,24,12,11,10,9,8,7,6,5,4,3,2,1,0,23,22,21,20,19 };`
Teensy pin mapping of the address/data bus starting from the LSB. -/
def bus_pins : List Nat := [25, 24, 12, 11, 10, 9, 8, 7, 6, 5, 4, 3, 2, 1, 0, 23, 22, 21, 20, 19]

/-- The array access `bus_pins[i]` of the sketch. -/
def bus_pin (i : Nat) : Nat := bus_pins.getD i 0

/-- Body of the `for` loop of `drive_address`:
`pinMode(bus_pins[i], OUTPUT); digitalWrite(bus_pins[i], !!(addr & (1UL << i)));`
(`!!(addr & (1UL << i))` is bit `i` of `addr`). -/
def drive_step (addr : Nat) (t : Sys) (i : Nat) : Sys :=
  dWrite (bus_pin i) (addr.testBit i) (dMode (bus_pin i) Mode.output t)

/-- `drive_address`: drive the bus with a specified value (20 lines, LSB first). -/
def drive_address (addr : Nat) (s : Sys) : Sys :=
  (List.range 20).foldl (drive_step addr) s

/-- `tristate_address_pins`: set the entire address bus to tristate (undriven).
`ADDRESS_BUS_WIDTH` is 20. -/
def tristate_address_pins (s : Sys) : Sys :=
  (List.range 20).foldl (fun t i => dMode (bus_pin i) Mode.input t) s

/-- `tristate_data_pins`: set the data portion of the bus to tristate.
`DATA_BUS_WIDTH` is 8. -/
def tristate_data_pins (s : Sys) : Sys :=
  (List.range 8).foldl (fun t i => dMode (bus_pin i) Mode.input t) s

/-- `read_data`: return the 8-bit value on the data bus;
`if (digitalRead(bus_pins[i])) val |= (1 << i);` for `i` in `[0,8)`. -/
def read_data (env : Nat → Bool) (s : Sys) : Sys × Nat :=
  (List.range 8).foldl
    (fun acc i =>
      let r := dRead env (bus_pin i) acc.1
      (r.1, if r.2 then acc.2 ||| (1 <<< i) else acc.2))
    (s, 0)

/-- `bus_state_driven_idle`: set all the bus control signals to driven with
the idle values. -/
def bus_state_driven_idle (s : Sys) : Sys :=
  let s := dMode BUFEN Mode.output (dWrite BUFEN true s)
  let s := dMode BUFRW Mode.output (dWrite BUFRW false s)
  let s := dMode ASTB Mode.output (dWrite ASTB false s)
  let s := dMode RD Mode.output (dWrite RD true s)
  let s := dMode WR Mode.output (dWrite WR true s)
  let s := dMode IOMEM Mode.output (dWrite IOMEM false s)
  s

/-- `bus_state_not_driven`: set all the bus control signals and the address
bus to tristate (undriven).  Note: this function is declared in the sketch
but never called from `setup` or `loop`. -/
def bus_state_not_driven (s : Sys) : Sys :=
  let s := dMode BUFEN Mode.input s
  let s := dMode BUFRW Mode.input s
  let s := dMode ASTB Mode.input s
  let s := dMode RD Mode.input s
  let s := dMode WR Mode.input s
  let s := dMode IOMEM Mode.input s
  tristate_address_pins s

/-- `bus_read_cycle`: perform a single read cycle on the bus and return the
result, in the exact statement order of the sketch. -/
def bus_read_cycle (env : Nat → Bool) (address : Nat) (s : Sys) : Sys × Nat :=
  let s1 := drive_address address s
  let s2 := dWrite ASTB true s1
  let s3 := dWrite ASTB false s2
  let s4 := tristate_data_pins s3
  let s5 := dWrite RD false s4
  let s6 := dWrite BUFEN false s5
  let s7 := delayMicroseconds 1 s6
  let r := read_data env s7
  let s8 := dWrite BUFEN true r.1
  let s9 := dWrite RD true s8
  (s9, r.2)

/-- The byte obtained by packing levels `f` of the low 8 bus lines,
bit `i` of the result being the level of `bus_pins[i]`. -/
def sampleByte (f : Nat → Bool) : Nat :=
  (List.range 8).foldl
    (fun v i => if f (bus_pin i) then v ||| (1 <<< i) else v) 0

/-! Initial pin state: on reset every Teensy GPIO is a floating input with a
low output latch; `setup` then configures HLDRQ, HLDAK and the LED. -/

def init_hw : HW := { mode := fun _ => Mode.input, out := fun _ => false }

def init_sys : Sys := { hw := init_hw, tr := [] }

/-- The pin configuration steps of `setup`:
`pinMode(HLDRQ, OUTPUT); digitalWrite(HLDRQ, BUS_RELEASE);
pinMode(HLDAK, INPUT); pinMode(LED_BUILTIN, OUTPUT);`. -/
def setup_pins (s : Sys) : Sys :=
  dMode LED_BUILTIN Mode.output
    (dMode HLDAK Mode.input (dWrite HLDRQ BUS_RELEASE (dMode HLDRQ Mode.output s)))

/-! Helper lemmas: concrete values of the pin table and of `List.range`. -/

theorem bp0 : bus_pin 0 = 25 := rfl
theorem bp1 : bus_pin 1 = 24 := rfl
theorem bp2 : bus_pin 2 = 12 := rfl
theorem bp3 : bus_pin 3 = 11 := rfl
theorem bp4 : bus_pin 4 = 10 := rfl
theorem bp5 : bus_pin 5 = 9 := rfl
theorem bp6 : bus_pin 6 = 8 := rfl
theorem bp7 : bus_pin 7 = 7 := rfl
theorem bp8 : bus_pin 8 = 6 := rfl
theorem bp9 : bus_pin 9 = 5 := rfl
theorem bp10 : bus_pin 10 = 4 := rfl
theorem bp11 : bus_pin 11 = 3 := rfl
theorem bp12 : bus_pin 12 = 2 := rfl
theorem bp13 : bus_pin 13 = 1 := rfl
theorem bp14 : bus_pin 14 = 0 := rfl
theorem bp15 : bus_pin 15 = 23 := rfl
theorem bp16 : bus_pin 16 = 22 := rfl
theorem bp17 : bus_pin 17 = 21 := rfl
theorem bp18 : bus_pin 18 = 20 := rfl
theorem bp19 : bus_pin 19 = 19 := rfl

theorem range20_eq :
    List.range 20 = [0, 1, 2, 3, 4, 5, 6, 7, 8, 9, 10, 11, 12, 13, 14, 15, 16, 17, 18, 19] := rfl

theorem range8_eq : List.range 8 = [0, 1, 2, 3, 4, 5, 6, 7] := rfl

/-! The event order required by the specification (spec sections 4.4 and 8),
written out per phase.  This is the spec side of the refinement claims about
`bus_read_cycle`; the per-pin granularity follows the hardware signal
contract (spec section 6), LSB first through the `bus_pins` mapping. -/

/-- Spec phase 1: drive the address onto the 20 address lines. -/
def driveOrder (a : Nat) : List Event :=
  [Event.setMode 25 Mode.output, Event.write 25 (a.testBit 0),
   Event.setMode 24 Mode.output, Event.write 24 (a.testBit 1),
   Event.setMode 12 Mode.output, Event.write 12 (a.testBit 2),
   Event.setMode 11 Mode.output, Event.write 11 (a.testBit 3),
   Event.setMode 10 Mode.output, Event.write 10 (a.testBit 4),
   Event.setMode 9 Mode.output, Event.write 9 (a.testBit 5),
   Event.setMode 8 Mode.output, Event.write 8 (a.testBit 6),
   Event.setMode 7 Mode.output, Event.write 7 (a.testBit 7),
   Event.setMode 6 Mode.output, Event.write 6 (a.testBit 8),
   Event.setMode 5 Mode.output, Event.write 5 (a.testBit 9),
   Event.setMode 4 Mode.output, Event.write 4 (a.testBit 10),
   Event.setMode 3 Mode.output, Event.write 3 (a.testBit 11),
   Event.setMode 2 Mode.output, Event.write 2 (a.testBit 12),
   Event.setMode 1 Mode.output, Event.write 1 (a.testBit 13),
   Event.setMode 0 Mode.output, Event.write 0 (a.testBit 14),
   Event.setMode 23 Mode.output, Event.write 23 (a.testBit 15),
   Event.setMode 22 Mode.output, Event.write 22 (a.testBit 16),
   Event.setMode 21 Mode.output, Event.write 21 (a.testBit 17),
   Event.setMode 20 Mode.output, Event.write 20 (a.testBit 18),
   Event.setMode 19 Mode.output, Event.write 19 (a.testBit 19)]

/-- Spec phase 3: release the low 8 (data) lines to floating. -/
def floatOrder : List Event :=
  [Event.setMode 25 Mode.input, Event.setMode 24 Mode.input,
   Event.setMode 12 Mode.input, Event.setMode 11 Mode.input,
   Event.setMode 10 Mode.input, Event.setMode 9 Mode.input,
   Event.setMode 8 Mode.input, Event.setMode 7 Mode.input]

/-- Spec phase 6: sample the byte from the low 8 (data) lines. -/
def sampleOrder (f : Nat → Bool) : List Event :=
  [Event.readPin 25 (f 25), Event.readPin 24 (f 24),
   Event.readPin 12 (f 12), Event.readPin 11 (f 11),
   Event.readPin 10 (f 10), Event.readPin 9 (f 9),
   Event.readPin 8 (f 8), Event.readPin 7 (f 7)]

/-- The complete transition order of one read cycle as demanded by the spec:
address drive, then the address-strobe pulse high then low, then release of
the low data lines to floating, then read-enable and buffer-enable assertion
(both active-low), then the settle delay, then the sample, then deassertion
of the enables back to idle. -/
def specCycleOrder (a : Nat) (f : Nat → Bool) : List Event :=
  driveOrder a
    ++ [Event.write ASTB true, Event.write ASTB false]
    ++ floatOrder
    ++ [Event.write RD false, Event.write BUFEN false, Event.delayMicros 1]
    ++ sampleOrder f
    ++ [Event.write BUFEN true, Event.write RD true]

/-- The trace emitted by one `bus_read_cycle` is exactly `specCycleOrder`. -/
theorem cycle_tr (f : Nat → Bool) (a : Nat) (s : Sys) :
    ((bus_read_cycle f a s).1).tr = s.tr ++ specCycleOrder a f := by
  simp [bus_read_cycle, drive_address, drive_step, tristate_data_pins, read_data,
    range20_eq, range8_eq, dWrite, dMode, dRead, delayMicroseconds,
    digitalReadHW, digitalWriteHW, pinModeHW,
    bp0, bp1, bp2, bp3, bp4, bp5, bp6, bp7, bp8, bp9, bp10, bp11, bp12, bp13,
    bp14, bp15, bp16, bp17, bp18, bp19,
    specCycleOrder, driveOrder, floatOrder, sampleOrder, ASTB, RD, BUFEN]

/-- The value returned by one `bus_read_cycle` is the packed byte of the
levels the environment drives on the low 8 bus lines (whatever the incoming
pin state was, because the cycle floats those lines before sampling). -/
theorem cycle_value (f : Nat → Bool) (a : Nat) (s : Sys) :
    (bus_read_cycle f a s).2 = sampleByte f := by
  simp [bus_read_cycle, drive_address, drive_step, tristate_data_pins, read_data,
    range20_eq, range8_eq, dWrite, dMode, dRead, delayMicroseconds,
    digitalReadHW, digitalWriteHW, pinModeHW,
    bp0, bp1, bp2, bp3, bp4, bp5, bp6, bp7, bp8, bp9, bp10, bp11, bp12, bp13,
    bp14, bp15, bp16, bp17, bp18, bp19, sampleByte]

/-! Helper lemmas about `sampleByte`. -/

theorem ite_or_form (b : Bool) (v k : Nat) :
    (if b then v ||| (1 <<< k) else v) = v ||| ((if b then 1 else 0) <<< k) := by
  cases b <;> simp

theorem testBit_one_eq (m : Nat) : Nat.testBit 1 m = decide (m = 0) := by
  cases m with
  | zero => rfl
  | succ n => simp [Nat.testBit_succ]

theorem ite10_testBit (b : Bool) (k : Nat) :
    (if b then (1 : Nat) else 0).testBit k = (b && decide (k = 0)) := by
  cases b <;> simp [testBit_one_eq]

/-- `sampleByte` as a disjoint or of shifted single bits. -/
theorem sampleByte_or (f : Nat → Bool) :
    sampleByte f =
      ((if f 25 then 1 else 0) <<< 0) ||| ((if f 24 then 1 else 0) <<< 1) |||
      ((if f 12 then 1 else 0) <<< 2) ||| ((if f 11 then 1 else 0) <<< 3) |||
      ((if f 10 then 1 else 0) <<< 4) ||| ((if f 9 then 1 else 0) <<< 5) |||
      ((if f 8 then 1 else 0) <<< 6) ||| ((if f 7 then 1 else 0) <<< 7) := by
  simp only [sampleByte, range8_eq, List.foldl_cons, List.foldl_nil,
    bp0, bp1, bp2, bp3, bp4, bp5, bp6, bp7, ite_or_form]
  simp [Nat.or_assoc]

/-- Bit `i` of the packed byte is the level of bus line `i`, for `i < 8`. -/
theorem sampleByte_testBit (f : Nat → Bool) (i : Nat) (hi : i < 8) :
    (sampleByte f).testBit i = f (bus_pin i) := by
  rw [sampleByte_or]
  interval_cases i <;>
    simp [Nat.testBit_or, Nat.testBit_shiftLeft, ite10_testBit,
      bp0, bp1, bp2, bp3, bp4, bp5, bp6, bp7,
      Nat.testBit_zero, apply_ite (fun n : Nat => n % 2)]

/-- The packed byte is an 8-bit value. -/
theorem sampleByte_lt (f : Nat → Bool) : sampleByte f < 256 := by
  rw [sampleByte_or]
  have h : ∀ (b : Bool) (k : Nat), k < 8 → ((if b then 1 else 0) <<< k) < 256 := by
    intro b k hk
    cases b <;> (interval_cases k <;> decide)
  have h256 : (256 : Nat) = 2 ^ 8 := rfl
  rw [h256]
  apply Nat.or_lt_two_pow
  apply Nat.or_lt_two_pow
  apply Nat.or_lt_two_pow
  apply Nat.or_lt_two_pow
  apply Nat.or_lt_two_pow
  apply Nat.or_lt_two_pow
  apply Nat.or_lt_two_pow
  all_goals exact h _ _ (by decide)

/-- `sampleByte` only looks at the levels of the low 8 bus lines. -/
theorem sampleByte_congr (f g : Nat → Bool)
    (h : ∀ j, j < 8 → f (bus_pin j) = g (bus_pin j)) :
    sampleByte f = sampleByte g := by
  have h0 : f 25 = g 25 := h 0 (by decide)
  have h1 : f 24 = g 24 := h 1 (by decide)
  have h2 : f 12 = g 12 := h 2 (by decide)
  have h3 : f 11 = g 11 := h 3 (by decide)
  have h4 : f 10 = g 10 := h 4 (by decide)
  have h5 : f 9 = g 9 := h 5 (by decide)
  have h6 : f 8 = g 8 := h 6 (by decide)
  have h7 : f 7 = g 7 := h 7 (by decide)
  simp [sampleByte, range8_eq, bp0, bp1, bp2, bp3, bp4, bp5, bp6, bp7,
    h0, h1, h2, h3, h4, h5, h6, h7]

/-- `read_data` returns the packed byte of the levels that `digitalRead`
observes on the low 8 bus lines in the incoming state. -/
theorem read_data_val (env : Nat → Bool) (s : Sys) :
    (read_data env s).2 = sampleByte (fun p => digitalReadHW env s.hw p) := by
  simp [read_data, sampleByte, dRead, range8_eq,
    bp0, bp1, bp2, bp3, bp4, bp5, bp6, bp7]

/-! Helper lemmas about the effect of `drive_address` on the pin state. -/

theorem drive_step_hw_mode (a : Nat) (t : Sys) (i q : Nat) :
    (drive_step a t i).hw.mode q =
      if q = bus_pin i then Mode.output else t.hw.mode q := by
  simp [drive_step, dWrite, dMode, digitalWriteHW, pinModeHW]

theorem drive_step_hw_out (a : Nat) (t : Sys) (i q : Nat) :
    (drive_step a t i).hw.out q =
      if q = bus_pin i then a.testBit i else t.hw.out q := by
  simp [drive_step, dWrite, dMode, digitalWriteHW, pinModeHW]

/-- After `drive_address a`, bus line `i` is in output mode and carries
bit `i` of `a`, for every `i < 20`. -/
theorem drive_address_effect (a : Nat) (s : Sys) (i : Nat) (hi : i < 20) :
    (drive_address a s).hw.mode (bus_pin i) = Mode.output ∧
    (drive_address a s).hw.out (bus_pin i) = a.testBit i := by
  interval_cases i <;>
    simp [drive_address, range20_eq, drive_step_hw_mode, drive_step_hw_out,
      bp0, bp1, bp2, bp3, bp4, bp5, bp6, bp7, bp8, bp9, bp10, bp11, bp12, bp13,
      bp14, bp15, bp16, bp17, bp18, bp19]

/-- `drive_address` leaves every pin outside the 20 bus pins untouched. -/
theorem drive_address_untouched (a : Nat) (s : Sys) (q : Nat) (hq : q ∉ bus_pins) :
    (drive_address a s).hw.mode q = s.hw.mode q ∧
    (drive_address a s).hw.out q = s.hw.out q := by
  simp only [bus_pins, List.mem_cons, List.not_mem_nil, or_false, not_or] at hq
  obtain ⟨h1, h2, h3, h4, h5, h6, h7, h8, h9, h10, h11, h12, h13, h14, h15, h16,
    h17, h18, h19, h20⟩ := hq
  simp [drive_address, range20_eq, drive_step_hw_mode, drive_step_hw_out,
    bp0, bp1, bp2, bp3, bp4, bp5, bp6, bp7, bp8, bp9, bp10, bp11, bp12, bp13,
    bp14, bp15, bp16, bp17, bp18, bp19,
    h1, h2, h3, h4, h5, h6, h7, h8, h9, h10, h11, h12, h13, h14, h15, h16,
    h17, h18, h19, h20]

/-! The dump loop of `loop()`:
`for (unsigned long addr=0; addr <= 0xFFFFFul; addr++)
   dumpfile.write(bus_read_cycle(addr));   // ignoring any errors here.`

The memory seen on the bus is `env : Nat -> Nat -> Bool`, giving per driven
address the level of each line while the data lines float (the spec assumes
the target has static address decoding for the whole capture).  The SD-card
sink (`File.write` of the SdFat library) is external to this repository; modelled from
the spec: a byte-forward may fail per byte (`ok addr` is false), and a failed
forward is silently dropped (spec section 9: the baseline "silently drops
failed bytes"); the return value of `write` is ignored by the sketch. -/

/-- Result state of the dump loop: final pin state, the list of addresses
passed to `bus_read_cycle` (in call order), the list of bytes passed to the
sink (in order), and the bytes that actually reached the file. -/
structure DumpOut where
  sys : Sys
  calls : List Nat
  fwd : List Nat
  fileBytes : List Nat

/-- One iteration of the dump loop at address `addr`. -/
def dump_step (env : Nat → Nat → Bool) (ok : Nat → Bool) (d : DumpOut) (addr : Nat) :
    DumpOut :=
  let r := bus_read_cycle (env addr) addr d.sys
  { sys := r.1
    calls := d.calls ++ [addr]
    fwd := d.fwd ++ [r.2]
    fileBytes := if ok addr then d.fileBytes ++ [r.2] else d.fileBytes }

/-- The `for` loop itself:
`for (unsigned long addr = ...; addr <= 0xFFFFFul; addr++) ...`,
recursion on how far `addr` still is from the end of the address space. -/
def dump_loop (env : Nat → Nat → Bool) (ok : Nat → Bool) (addr : Nat) (d : DumpOut) :
    DumpOut :=
  if addr ≤ 0xFFFFF then dump_loop env ok (addr + 1) (dump_step env ok d addr)
  else d
termination_by 0x100000 - addr

/-- The whole dump loop, `addr` from 0 to 0xFFFFF inclusive
(0x100000 = 1048576 iterations). -/
def dump_pass (env : Nat → Nat → Bool) (ok : Nat → Bool) (s : Sys) : DumpOut :=
  dump_loop env ok 0 ⟨s, [], [], []⟩

theorem dump_pass_eq (env : Nat → Nat → Bool) (ok : Nat → Bool) (s : Sys) :
    dump_pass env ok s = dump_loop env ok 0 ⟨s, [], [], []⟩ := rfl

/-! Generic unrollings of the dump loop, by induction on the number of
remaining iterations.  `List.range' a k` is the list `[a, a+1, ..., a+k-1]`. -/

theorem dump_loop_calls (env : Nat → Nat → Bool) (ok : Nat → Bool) :
    ∀ (n addr : Nat), 0x100000 - addr = n → ∀ (d : DumpOut),
      (dump_loop env ok addr d).calls = d.calls ++ List.range' addr (0x100000 - addr) := by
  intro n
  induction n with
  | zero =>
    intro addr h d
    rw [dump_loop]
    have hc : ¬ addr ≤ 0xFFFFF := by omega
    simp [hc, h]
  | succ k ih =>
    intro addr h d
    rw [dump_loop]
    have hc : addr ≤ 0xFFFFF := by omega
    simp only [hc, if_true]
    rw [ih (addr + 1) (by omega)]
    have hsub : 0x100000 - addr = (0x100000 - (addr + 1)) + 1 := by omega
    rw [hsub, List.range'_succ]
    simp [dump_step]

theorem dump_loop_fwd (env : Nat → Nat → Bool) (ok : Nat → Bool) :
    ∀ (n addr : Nat), 0x100000 - addr = n → ∀ (d : DumpOut),
      (dump_loop env ok addr d).fwd =
        d.fwd ++ (List.range' addr (0x100000 - addr)).map (fun x => sampleByte (env x)) := by
  intro n
  induction n with
  | zero =>
    intro addr h d
    rw [dump_loop]
    have hc : ¬ addr ≤ 0xFFFFF := by omega
    simp [hc, h]
  | succ k ih =>
    intro addr h d
    rw [dump_loop]
    have hc : addr ≤ 0xFFFFF := by omega
    simp only [hc, if_true]
    rw [ih (addr + 1) (by omega)]
    have hsub : 0x100000 - addr = (0x100000 - (addr + 1)) + 1 := by omega
    rw [hsub, List.range'_succ]
    simp [dump_step, cycle_value]

theorem dump_loop_fileBytes (env : Nat → Nat → Bool) (ok : Nat → Bool) :
    ∀ (n addr : Nat), 0x100000 - addr = n → ∀ (d : DumpOut),
      (dump_loop env ok addr d).fileBytes =
        d.fileBytes ++
          ((List.range' addr (0x100000 - addr)).filter ok).map
            (fun x => sampleByte (env x)) := by
  intro n
  induction n with
  | zero =>
    intro addr h d
    rw [dump_loop]
    have hc : ¬ addr ≤ 0xFFFFF := by omega
    simp [hc, h]
  | succ k ih =>
    intro addr h d
    rw [dump_loop]
    have hc : addr ≤ 0xFFFFF := by omega
    simp only [hc, if_true]
    rw [ih (addr + 1) (by omega)]
    have hsub : 0x100000 - addr = (0x100000 - (addr + 1)) + 1 := by omega
    rw [hsub, List.range'_succ]
    by_cases hk : ok addr
    · rw [List.filter_cons_of_pos hk]
      simp [dump_step, cycle_value, hk]
    · rw [List.filter_cons_of_neg (by simp [hk])]
      simp [dump_step, hk]

/-! Mode of the ASTB control pin (Teensy pin 37) across the capture. -/

/-- A read cycle never changes the direction of pin 37 (ASTB): the only
`pinMode` calls it makes are on the 20 bus pins. -/
theorem cycle_mode_astb (f : Nat → Bool) (a : Nat) (s : Sys) :
    ((bus_read_cycle f a s).1).hw.mode 37 = s.hw.mode 37 := by
  simp [bus_read_cycle, drive_address, drive_step, tristate_data_pins, read_data,
    range20_eq, range8_eq, dWrite, dMode, dRead, delayMicroseconds,
    digitalReadHW, digitalWriteHW, pinModeHW,
    bp0, bp1, bp2, bp3, bp4, bp5, bp6, bp7, bp8, bp9, bp10, bp11, bp12, bp13,
    bp14, bp15, bp16, bp17, bp18, bp19, RD, BUFEN, ASTB]

/-- `bus_state_driven_idle` drives ASTB (pin 37). -/
theorem idle_mode_astb (s : Sys) :
    (bus_state_driven_idle s).hw.mode 37 = Mode.output := by
  simp [bus_state_driven_idle, dWrite, dMode, digitalWriteHW, pinModeHW,
    BUFEN, BUFRW, ASTB, RD, WR, IOMEM]

/-- The dump loop never changes the direction of pin 37. -/
theorem dump_loop_mode_astb (env : Nat → Nat → Bool) (ok : Nat → Bool) :
    ∀ (n addr : Nat), 0x100000 - addr = n → ∀ (d : DumpOut),
      (dump_loop env ok addr d).sys.hw.mode 37 = d.sys.hw.mode 37 := by
  intro n
  induction n with
  | zero =>
    intro addr h d
    rw [dump_loop]
    have hc : ¬ addr ≤ 0xFFFFF := by omega
    simp [hc]
  | succ k ih =>
    intro addr h d
    rw [dump_loop]
    have hc : addr ≤ 0xFFFFF := by omega
    simp only [hc, if_true]
    rw [ih (addr + 1) (by omega)]
    exact cycle_mode_astb _ _ _

/-- `dump_pass` never changes the direction of pin 37. -/
theorem dump_pass_mode_astb (env : Nat → Nat → Bool) (ok : Nat → Bool) (s : Sys) :
    (dump_pass env ok s).sys.hw.mode 37 = s.hw.mode 37 := by
  rw [dump_pass_eq]
  rw [dump_loop_mode_astb env ok (0x100000 - 0) 0 rfl]

/-- The capture state at the moment `loop()` is about to execute
`digitalWrite(HLDRQ, BUS_RELEASE)` (after the hold request, the LED, taking
over the control signals, and the complete dump; the HLDAK polls and the
serial and SD-card traffic do not touch any pin state).  Its `.sys` field is
the pin state at that moment. -/
def capture_pre_release (env : Nat → Nat → Bool) (ok : Nat → Bool) (s : Sys) : DumpOut :=
  dump_pass env ok
    (bus_state_driven_idle (dWrite LED_BUILTIN true (dWrite HLDRQ BUS_HOLD s)))

theorem capture_pre_release_eq (env : Nat → Nat → Bool) (ok : Nat → Bool) (s : Sys) :
    capture_pre_release env ok s =
      dump_pass env ok
        (bus_state_driven_idle (dWrite LED_BUILTIN true (dWrite HLDRQ BUS_HOLD s))) := rfl

/-- A concrete quiet environment: every floating line reads LOW. -/
def env0 : Nat → Nat → Bool := fun _ _ => false

/-- A sink whose writes all succeed. -/
def ok0 : Nat → Bool := fun _ => true

/-! The busy-wait loops of the bus arbiter, e.g.
`while (digitalRead(HLDAK) != BUS_ACK);`.  The successive values observed on
HLDAK are a sequence `obs : Nat -> Bool` (poll number to level); the loop is
embedded with fuel, `none` standing for a spin that has not terminated
within `fuel` polls (the sketch itself waits forever). -/

def wait_until (obs : Nat → Bool) (target : Bool) : Nat → Nat → Option Nat
  | _, 0 => none
  | t, fuel + 1 => if obs t = target then some t else wait_until obs target (t + 1) fuel

/-- `digitalWrite(HLDRQ, BUS_HOLD); while (digitalRead(HLDAK) != BUS_ACK);`
returns the number of the poll that first observed BUS_ACK. -/
def acquire_wait (hldak : Nat → Bool) (fuel : Nat) : Option Nat :=
  wait_until hldak BUS_ACK 0 fuel

/-- `digitalWrite(HLDRQ, BUS_RELEASE); while (digitalRead(HLDAK) == BUS_ACK);`
returns the number of the poll that first observed BUS_NAK. -/
def release_wait (hldak : Nat → Bool) (fuel : Nat) : Option Nat :=
  wait_until hldak BUS_NAK 0 fuel

/-- The Bus Ownership State enum of the spec (spec section 3). -/
inductive BusOwnState where
  | Released : BusOwnState
  | Requested : BusOwnState
  | Held : BusOwnState
deriving DecidableEq, Repr

/-- Ownership state after the acquire spin: `Held` exactly when the spin
exited, `Requested` while it is still polling. -/
def acquire_outcome (hldak : Nat → Bool) (fuel : Nat) : BusOwnState :=
  match acquire_wait hldak fuel with
  | some _ => BusOwnState.Held
  | none => BusOwnState.Requested

/-- Ownership state after the release spin: `Released` exactly when the spin
exited, `Held` while it is still polling. -/
def release_outcome (hldak : Nat → Bool) (fuel : Nat) : BusOwnState :=
  match release_wait hldak fuel with
  | some _ => BusOwnState.Released
  | none => BusOwnState.Held

theorem wait_until_spec (obs : Nat → Bool) (target : Bool) :
    ∀ (fuel t0 t : Nat), wait_until obs target t0 fuel = some t →
      obs t = target ∧ t0 ≤ t ∧ ∀ v, t0 ≤ v → v < t → obs v ≠ target := by
  intro fuel
  induction fuel with
  | zero => intro t0 t h; simp [wait_until] at h
  | succ n ih =>
    intro t0 t h
    by_cases h0 : obs t0 = target
    · simp [wait_until, h0] at h
      subst h
      exact ⟨h0, Nat.le_refl t0, fun v hv1 hv2 => absurd (Nat.lt_of_le_of_lt hv1 hv2) (Nat.lt_irrefl t0)⟩
    · simp [wait_until, h0] at h
      obtain ⟨ho, ht, hall⟩ := ih (t0 + 1) t h
      refine ⟨ho, Nat.le_trans (Nat.le_succ t0) ht, fun v hv1 hv2 => ?_⟩
      rcases Nat.eq_or_lt_of_le hv1 with he | hl
      · exact he ▸ h0
      · exact hall v hl hv2

/-! The file slot allocator: `file_number`, `filename` and `next_file()` of
the sketch, and the probing loop of `setup()`:
`while (sd.exists(filename)) next_file();` starting from
`int file_number = 0; char filename[] = "CWMEM000.BIN";`. -/

/-- The digit field written by `sprintf(filename, "%03d", n)` for `n` in `[0, 999]`. -/
def pad3 (n : Nat) : String :=
  if n < 10 then "00" ++ toString n
  else if n < 100 then "0" ++ toString n
  else toString n

/-- The filename `CWMEMxxx.BIN` for slot `n`. -/
def fileNameFor (n : Nat) : String := "CWMEM" ++ pad3 n ++ ".BIN"

/-- `next_file()`: increment `file_number`; if it would pass 999 the sketch
prints a message and freezes (`while (1);`), modelled as `none`; otherwise
the new number and the new `filename`. -/
def next_file (n : Nat) : Option (Nat × String) :=
  if n + 1 > 999 then none
  else some (n + 1, fileNameFor (n + 1))

/-- The probing loop of `setup()`, starting at slot `n` with enough fuel.
`ex k` says whether an artifact with slot `k` already exists on the card.
`none` is the frozen (fatal) state reached through `next_file` when all
1000 slots are taken. -/
def find_first_free (ex : Nat → Bool) : Nat → Nat → Option Nat
  | _, 0 => none
  | n, fuel + 1 =>
    if ex n then
      if n + 1 > 999 then none
      else find_first_free ex (n + 1) fuel
    else some n

/-- `nextAvailable()`: the slot `setup()` settles on (1001 units of fuel are
enough for the loop, which can run at most 1000 times before `next_file`
freezes). -/
def next_available (ex : Nat → Bool) : Option Nat :=
  find_first_free ex 0 1001

theorem find_first_free_spec (ex : Nat → Bool) (n : Nat) (hn : n ≤ 999)
    (hfree : ex n = false) :
    ∀ (fuel m : Nat), m ≤ n → n - m < fuel →
      (∀ k, m ≤ k → k < n → ex k = true) →
      find_first_free ex m fuel = some n := by
  intro fuel
  induction fuel with
  | zero => intro m _ h; omega
  | succ f ih =>
    intro m hm hfuel hall
    rcases Nat.eq_or_lt_of_le hm with he | hl
    · subst he
      simp [find_first_free, hfree]
    · have hexm : ex m = true := hall m (Nat.le_refl m) hl
      have hm999 : ¬ (m + 1 > 999) := by omega
      simp only [find_first_free, hexm, if_true, hm999, if_false]
      exact ih (m + 1) hl (by omega) (fun k hk1 hk2 => hall k (by omega) hk2)


/-! `dump_pass`-level corollaries of the loop unrollings. -/

theorem dump_pass_calls (env : Nat → Nat → Bool) (ok : Nat → Bool) (s : Sys) :
    (dump_pass env ok s).calls = List.range 1048576 := by
  rw [dump_pass_eq]
  rw [dump_loop_calls env ok (0x100000 - 0) 0 rfl]
  simp [List.range_eq_range']

theorem dump_pass_fwd (env : Nat → Nat → Bool) (ok : Nat → Bool) (s : Sys) :
    (dump_pass env ok s).fwd = (List.range 1048576).map (fun x => sampleByte (env x)) := by
  rw [dump_pass_eq]
  rw [dump_loop_fwd env ok (0x100000 - 0) 0 rfl]
  simp [List.range_eq_range']

theorem dump_pass_fileBytes (env : Nat → Nat → Bool) (ok : Nat → Bool) (s : Sys) :
    (dump_pass env ok s).fileBytes =
      ((List.range 1048576).filter ok).map (fun x => sampleByte (env x)) := by
  rw [dump_pass_eq]
  rw [dump_loop_fileBytes env ok (0x100000 - 0) 0 rfl]
  simp [List.range_eq_range']

/-! Claim theorems. -/

/-- C1: for every address `a` in `[0, 0xFFFFF]`, `bus_read_cycle a` performs
its externally visible transitions in exactly the order demanded by the spec
(`specCycleOrder`): address drive, address-strobe pulse high then low,
release of the low data lines to floating, read-enable and buffer-enable
assertion, settle delay, sample, deassertion of the enables back to idle.
The returned value is the sampled byte (an 8-bit value); the operation is a
total function — no error is ever raised. -/
theorem read_cycle_order (a : Nat) (ha : a ≤ 0xFFFFF) (f : Nat → Bool) (s : Sys) :
    ((bus_read_cycle f a s).1).tr = s.tr ++ specCycleOrder a f ∧
    (bus_read_cycle f a s).2 = sampleByte f ∧ sampleByte f < 256 :=
  ⟨cycle_tr f a s, cycle_value f a s, sampleByte_lt f⟩

/-- Witness for C1 at address 0 with a quiet environment. -/
theorem read_cycle_order_witness :
    ((bus_read_cycle (fun _ => false) 0 init_sys).1).tr =
      init_sys.tr ++ specCycleOrder 0 (fun _ => false) ∧
    (bus_read_cycle (fun _ => false) 0 init_sys).2 = sampleByte (fun _ => false) ∧
    sampleByte (fun _ => false) < 256 :=
  read_cycle_order 0 (by decide) (fun _ => false) init_sys

/-- C3 counterexample: in the concrete trace of `bus_read_cycle` at address 0
the buffer-enable assertion (`write BUFEN LOW`) does NOT come before the
read-enable assertion (`write RD LOW`), and the buffer-enable deassertion
does NOT come after the read-enable deassertion — the claimed bracketing of
the read-enable window by the buffer-enable window fails. -/
theorem bufen_window_not_bracketing :
    ¬ ((((bus_read_cycle (fun _ => false) 0 init_sys).1).tr.findIdx
          (fun e => decide (e = Event.write BUFEN false)) <
        (((bus_read_cycle (fun _ => false) 0 init_sys).1).tr.findIdx
          (fun e => decide (e = Event.write RD false)))) ∧
       (((bus_read_cycle (fun _ => false) 0 init_sys).1).tr.findIdx
          (fun e => decide (e = Event.write RD true)) <
        (((bus_read_cycle (fun _ => false) 0 init_sys).1).tr.findIdx
          (fun e => decide (e = Event.write BUFEN true))))) := by
  rw [cycle_tr]
  decide

/-- C3 amended: in every read cycle the read-enable window brackets the
buffer-enable window — the emitted trace splits as
`pre ++ [write RD LOW] ++ mid ++ [write RD HIGH]` where both buffer-enable
transitions lie in `mid` and no read-enable or buffer-enable transition
occurs in `pre`. -/
theorem rd_window_brackets_bufen (a : Nat) (ha : a ≤ 0xFFFFF) (f : Nat → Bool) (s : Sys) :
    ∃ pre mid,
      ((bus_read_cycle f a s).1).tr =
        s.tr ++ (pre ++ Event.write RD false :: (mid ++ [Event.write RD true])) ∧
      Event.write BUFEN false ∈ mid ∧ Event.write BUFEN true ∈ mid ∧
      Event.write BUFEN false ∉ pre ∧ Event.write BUFEN true ∉ pre ∧
      Event.write RD false ∉ pre ∧ Event.write RD true ∉ pre ∧
      Event.write RD false ∉ mid ∧ Event.write RD true ∉ mid := by
  refine ⟨driveOrder a ++ [Event.write ASTB true, Event.write ASTB false] ++ floatOrder,
    [Event.write BUFEN false, Event.delayMicros 1] ++ sampleOrder f ++ [Event.write BUFEN true],
    ?_, ?_, ?_, ?_, ?_, ?_, ?_, ?_, ?_⟩
  · rw [cycle_tr]
    simp [specCycleOrder, driveOrder, floatOrder, sampleOrder]
  · simp
  · simp
  · simp [driveOrder, floatOrder, ASTB, BUFEN]
  · simp [driveOrder, floatOrder, ASTB, BUFEN]
  · simp [driveOrder, floatOrder, ASTB, RD]
  · simp [driveOrder, floatOrder, ASTB, RD]
  · simp [sampleOrder, RD, BUFEN]
  · simp [sampleOrder, RD, BUFEN]

/-- Witness for the amended C3 at address 0 with a quiet environment. -/
theorem rd_window_brackets_bufen_witness :
    ∃ pre mid,
      ((bus_read_cycle (fun _ => false) 0 init_sys).1).tr =
        init_sys.tr ++ (pre ++ Event.write RD false :: (mid ++ [Event.write RD true])) ∧
      Event.write BUFEN false ∈ mid ∧ Event.write BUFEN true ∈ mid ∧
      Event.write BUFEN false ∉ pre ∧ Event.write BUFEN true ∉ pre ∧
      Event.write RD false ∉ pre ∧ Event.write RD true ∉ pre ∧
      Event.write RD false ∉ mid ∧ Event.write RD true ∉ mid :=
  rd_window_brackets_bufen 0 (by decide) (fun _ => false) init_sys

/-- C2 (code bug): at the moment `loop()` deasserts the hold request at the
end of a capture, the ASTB control line (Teensy pin 37) is still in driven
output mode, not floating; `bus_state_not_driven` exists in the sketch for
exactly this purpose but is never called.  (The same holds for BUFEN, BUFRW,
RD, WR, IOMEM and address lines A8..A19.) -/
theorem release_leaves_lines_driven :
    (capture_pre_release env0 ok0 (setup_pins init_sys)).sys.hw.mode ASTB = Mode.output ∧
    Mode.output ≠ Mode.input := by
  constructor
  · rw [show ASTB = 37 from rfl, capture_pre_release_eq, dump_pass_mode_astb]
    exact idle_mode_astb _
  · simp

/-- C4: one capture pass calls `bus_read_cycle` exactly 1,048,576 times, the
addresses are strictly ascending with no gaps, repeats, or reordering (every
address in `[0, 0xFFFFF]` is visited exactly once, nothing else is visited),
and the bytes forwarded to the sink are exactly the resulting samples in the
same order. -/
theorem dump_visits_each_address_once (env : Nat → Nat → Bool) (ok : Nat → Bool) (s : Sys) :
    (dump_pass env ok s).calls.length = 1048576 ∧
    (dump_pass env ok s).calls.Pairwise (· < ·) ∧
    (∀ a : Nat, (dump_pass env ok s).calls.count a = if a ≤ 0xFFFFF then 1 else 0) ∧
    (dump_pass env ok s).fwd =
      (dump_pass env ok s).calls.map (fun x => sampleByte (env x)) := by
  refine ⟨?_, ?_, ?_, ?_⟩
  · rw [dump_pass_calls, List.length_range]
  · rw [dump_pass_calls]
    exact List.pairwise_lt_range _
  · intro a
    rw [dump_pass_calls]
    by_cases hA : a ≤ 0xFFFFF
    · rw [if_pos hA]
      exact List.count_eq_one_of_mem (List.nodup_range _) (List.mem_range.mpr (by omega))
    · rw [if_neg hA]
      exact List.count_eq_zero_of_not_mem
        (fun hmem => hA (by have := List.mem_range.mp hmem; omega))
  · rw [dump_pass_fwd, dump_pass_calls]

/-- C5 counterexample: a capture in which a single byte-forward fails (the
sink rejects the byte for address 0) produces an artifact that is NOT
1,048,576 bytes long — the failed byte is silently dropped, not padded. -/
def sink_fails_at_0 : Nat → Bool := fun a => decide (a ≠ 0)

theorem dump_artifact_short_when_forward_fails :
    (dump_pass env0 sink_fails_at_0 (setup_pins init_sys)).fileBytes.length ≠ 1048576 := by
  rw [dump_pass_fileBytes]
  rw [List.length_map]
  have hflt : (List.range 1048576).filter sink_fails_at_0 =
      (List.range 1048575).map Nat.succ := by
    rw [show (1048576 : Nat) = 1048575 + 1 from rfl, List.range_succ_eq_map]
    rw [List.filter_cons_of_neg (by simp [sink_fails_at_0])]
    rw [List.filter_map]
    rw [List.filter_eq_self.mpr]
    intro a _
    simp [sink_fails_at_0, Function.comp]
  rw [hflt, List.length_map, List.length_range]
  omega

/-- C5 amended: the dump loop always issues exactly 1,048,576 byte-forwards,
the byte forwarded for address `k` being the sample read at address `k`; the
artifact consists, in order, of exactly the bytes whose forwards succeeded —
so it is exactly 1,048,576 bytes with byte at offset `k` equal to the sample
read at address `k` when every forward succeeds, and is shorter (failed
bytes silently dropped, not padded) otherwise. -/
theorem dump_file_is_successful_forwards (env : Nat → Nat → Bool) (ok : Nat → Bool) (s : Sys) :
    (dump_pass env ok s).fwd = (List.range 1048576).map (fun k => sampleByte (env k)) ∧
    (dump_pass env ok s).fileBytes =
      ((List.range 1048576).filter ok).map (fun k => sampleByte (env k)) ∧
    (dump_pass env (fun _ => true) s).fileBytes =
      (List.range 1048576).map (fun k => sampleByte (env k)) ∧
    (dump_pass env (fun _ => true) s).fileBytes.length = 1048576 := by
  have hfilter : (List.range 1048576).filter (fun _ => true) = List.range 1048576 :=
    List.filter_eq_self.mpr (fun a _ => rfl)
  have hall : (dump_pass env (fun _ => true) s).fileBytes =
      (List.range 1048576).map (fun k => sampleByte (env k)) := by
    rw [dump_pass_fileBytes, hfilter]
  exact ⟨dump_pass_fwd env ok s, dump_pass_fileBytes env ok s, hall,
    by rw [hall, List.length_map, List.length_range]⟩

/-- C6: the Bus Ownership State reaches `Held` only when the acquire spin
has observed the acknowledgement asserted — the exiting poll saw BUS_ACK and
every earlier poll saw BUS_NAK (the spin blocked until acknowledgement) —
and returns to `Released` only when the release spin has observed the
acknowledgement withdrawn — the exiting poll saw BUS_NAK and every earlier
poll saw BUS_ACK. -/
theorem bus_handshake_observed (ack nak : Nat → Bool) (fa fr : Nat)
    (h1 : acquire_outcome ack fa = BusOwnState.Held)
    (h2 : release_outcome nak fr = BusOwnState.Released) :
    (∃ t, acquire_wait ack fa = some t ∧ ack t = BUS_ACK ∧
      ∀ v, v < t → ack v = BUS_NAK) ∧
    (∃ u, release_wait nak fr = some u ∧ nak u = BUS_NAK ∧
      ∀ v, v < u → nak v = BUS_ACK) := by
  constructor
  · unfold acquire_outcome at h1
    cases hcase : acquire_wait ack fa with
    | none => rw [hcase] at h1; exact absurd h1 (by simp)
    | some t =>
      obtain ⟨ho, _, hall⟩ := wait_until_spec ack BUS_ACK fa 0 t hcase
      refine ⟨t, rfl, ho, fun v hv => ?_⟩
      have hne := hall v (Nat.zero_le v) hv
      unfold BUS_ACK at hne
      unfold BUS_NAK
      exact Bool.eq_false_iff.mpr hne
  · unfold release_outcome at h2
    cases hcase : release_wait nak fr with
    | none => rw [hcase] at h2; exact absurd h2 (by simp)
    | some u =>
      obtain ⟨ho, _, hall⟩ := wait_until_spec nak BUS_NAK fr 0 u hcase
      refine ⟨u, rfl, ho, fun v hv => ?_⟩
      have hne := hall v (Nat.zero_le v) hv
      unfold BUS_NAK at hne
      unfold BUS_ACK
      exact Bool.ne_false_iff.mp hne

/-- Witness for C6: HLDAK rises at poll 2 during acquire and falls at poll 3
during release. -/
theorem bus_handshake_observed_witness :
    (∃ t, acquire_wait (fun v => decide (2 ≤ v)) 4 = some t ∧
      (fun v => decide (2 ≤ v)) t = BUS_ACK ∧
      ∀ v, v < t → (fun v => decide (2 ≤ v)) v = BUS_NAK) ∧
    (∃ u, release_wait (fun v => decide (v < 3)) 5 = some u ∧
      (fun v => decide (v < 3)) u = BUS_NAK ∧
      ∀ v, v < u → (fun v => decide (v < 3)) v = BUS_ACK) :=
  bus_handshake_observed (fun v => decide (2 ≤ v)) (fun v => decide (v < 3)) 4 5
    (by decide) (by decide)

/-- C7: the probing loop of `setup()` returns the first slot identifier,
probing upward from 0, whose artifact does not exist: if every identifier
below `n` exists and `n` (within the naming space, `n ≤ 999`) does not, the
scan settles on `n`.  In particular it returns 0 on an empty naming space
and `n` when exactly `0..n-1` exist contiguously. -/
theorem next_available_first_free (ex : Nat → Bool) (n : Nat) (hn : n ≤ 999)
    (hprev : ∀ k, k < n → ex k = true) (hfree : ex n = false) :
    next_available ex = some n := by
  unfold next_available
  exact find_first_free_spec ex n hn hfree 1001 0 (Nat.zero_le n) (by omega)
    (fun k _ hk2 => hprev k hk2)

/-- Witness for C7: slots 0, 1, 2 exist, slot 3 is free. -/
theorem next_available_first_free_witness :
    next_available (fun k => decide (k < 3)) = some 3 :=
  next_available_first_free (fun k => decide (k < 3)) 3 (by decide)
    (fun k hk => decide_eq_true hk) (by decide)

/-- C8: `next_file` at slot 999 freezes the system (`none`) instead of
wrapping around or formatting an out-of-range name; whenever it does
produce a filename the new slot identifier is at most 999 and the name is
`CWMEM<3-digit slot>.BIN`. -/
theorem next_file_caps_at_999 (n m : Nat) (str : String)
    (h : next_file n = some (m, str)) :
    m ≤ 999 ∧ m = n + 1 ∧ str = fileNameFor (n + 1) ∧ next_file 999 = none := by
  unfold next_file at h
  by_cases hc : n + 1 > 999
  · rw [if_pos hc] at h
    exact absurd h (by simp)
  · rw [if_neg hc] at h
    simp only [Option.some.injEq, Prod.mk.injEq] at h
    obtain ⟨hm, hs⟩ := h
    exact ⟨by omega, hm.symm, hs.symm, rfl⟩

/-- Witness for C8: advancing from slot 0 yields slot 1 and `CWMEM001.BIN`. -/
theorem next_file_caps_at_999_witness :
    1 ≤ 999 ∧ 1 = 0 + 1 ∧ "CWMEM001.BIN" = fileNameFor (0 + 1) ∧ next_file 999 = none :=
  next_file_caps_at_999 0 1 "CWMEM001.BIN" (by decide)

/-- C9: `read_data` reads exactly the low 8 bus lines: bit `i` of the
returned byte is the level `digitalRead` observes on bus line `i` (for
`i < 8`), the result is the same for any environment and pin state that
agree on those 8 lines (lines 8 and above do not affect the result), and
the result is an 8-bit value. -/
theorem read_data_packs_low_lines (env env2 : Nat → Bool) (s s2 : Sys) (i : Nat)
    (hi : i < 8)
    (hagree : ∀ j, j < 8 →
      digitalReadHW env s.hw (bus_pin j) = digitalReadHW env2 s2.hw (bus_pin j)) :
    (read_data env s).2.testBit i = digitalReadHW env s.hw (bus_pin i) ∧
    (read_data env s).2 = (read_data env2 s2).2 ∧
    (read_data env s).2 < 256 := by
  refine ⟨?_, ?_, ?_⟩
  · rw [read_data_val]
    exact sampleByte_testBit _ i hi
  · rw [read_data_val, read_data_val]
    exact sampleByte_congr _ _ hagree
  · rw [read_data_val]
    exact sampleByte_lt _

/-- Witness for C9 at bit 0 with an all-high environment. -/
theorem read_data_packs_low_lines_witness :
    (read_data (fun _ => true) init_sys).2.testBit 0 =
      digitalReadHW (fun _ => true) init_sys.hw (bus_pin 0) ∧
    (read_data (fun _ => true) init_sys).2 = (read_data (fun _ => true) init_sys).2 ∧
    (read_data (fun _ => true) init_sys).2 < 256 :=
  read_data_packs_low_lines (fun _ => true) (fun _ => true) init_sys init_sys 0
    (by decide) (fun _ _ => rfl)

/-- Helper for C10: the drive loop only applies `testBit` at indices below
20, so two addresses with the same low 20 bits drive identically. -/
theorem drive_foldl_congr (a b : Nat) :
    ∀ (l : List Nat) (s : Sys), (∀ j ∈ l, a.testBit j = b.testBit j) →
      l.foldl (drive_step a) s = l.foldl (drive_step b) s := by
  intro l
  induction l with
  | nil => intro s _; rfl
  | cons x t ih =>
    intro s h
    simp only [List.foldl_cons]
    have hx : a.testBit x = b.testBit x := h x (List.mem_cons_self x t)
    have hstep : drive_step a s x = drive_step b s x := by
      unfold drive_step
      rw [hx]
    rw [hstep]
    exact ih _ (fun j hj => h j (List.mem_cons_of_mem x hj))

/-- C10: `drive_address` examines only the low 20 bits of its argument —
`drive_address a` and `drive_address (a % 2^20)` produce identical states
(values above the 20-bit range are masked, not undefined); it sets each of
the 20 bus lines to output mode carrying bit `i` of `a`, and leaves every
pin outside the bus untouched. -/
theorem drive_address_masks_to_20_bits (a : Nat) (s : Sys) (i q : Nat)
    (hi : i < 20) (hq : q ∉ bus_pins) :
    drive_address a s = drive_address (a % 2 ^ 20) s ∧
    (drive_address a s).hw.mode (bus_pin i) = Mode.output ∧
    (drive_address a s).hw.out (bus_pin i) = a.testBit i ∧
    (drive_address a s).hw.mode q = s.hw.mode q ∧
    (drive_address a s).hw.out q = s.hw.out q := by
  refine ⟨?_, (drive_address_effect a s i hi).1, (drive_address_effect a s i hi).2,
    (drive_address_untouched a s q hq).1, (drive_address_untouched a s q hq).2⟩
  have hbit : ∀ j ∈ List.range 20, a.testBit j = (a % 2 ^ 20).testBit j := by
    intro j hj
    rw [Nat.testBit_mod_two_pow]
    simp [List.mem_range.mp hj]
  unfold drive_address
  exact drive_foldl_congr a (a % 2 ^ 20) (List.range 20) s hbit

/-- Witness for C10 at `a = 0x123456` (21 bits), line 0, untouched pin 37. -/
theorem drive_address_masks_to_20_bits_witness :
    drive_address 0x123456 init_sys = drive_address (0x123456 % 2 ^ 20) init_sys ∧
    (drive_address 0x123456 init_sys).hw.mode (bus_pin 0) = Mode.output ∧
    (drive_address 0x123456 init_sys).hw.out (bus_pin 0) = Nat.testBit 0x123456 0 ∧
    (drive_address 0x123456 init_sys).hw.mode 37 = init_sys.hw.mode 37 ∧
    (drive_address 0x123456 init_sys).hw.out 37 = init_sys.hw.out 37 :=
  drive_address_masks_to_20_bits 0x123456 init_sys 0 37 (by decide) (by decide)

end V20
